import Mathlib

/-!
Verification development for the guest side of the many-level RPC layer
(`guest.js`): a shallow embedding of the guest-side data model (the
request/iterator id maps, the guest iterator state machine, the reply
frame dispatcher, retry/cleanup and close behaviour) together with
theorems about the properties the module is expected to satisfy.

Byte strings are modelled as lists of naturals, JS `Map` objects as
association lists preserving insertion order, and side effects that the
code performs (writing wire frames, firing request callbacks, emitting
the flush event, acquiring/releasing the keepalive ref, destroying the
transport) as explicit effect lists returned alongside the new state.
-/

namespace ManyLevel

/-- Byte strings on the wire are modelled as lists of naturals. -/
abbrev Bytes := List Nat

/- Input (guest to host) tag constants. The numeric values are fixed by the
protocol; `tags.js` is not part of the sources here, so the constants are
modelled from the spec section listing the input tags. -/
namespace input

def get : Nat := 1
def put : Nat := 2
def del : Nat := 3
def batch : Nat := 4
def iterator : Nat := 5
def iteratorClose : Nat := 6
def iteratorAck : Nat := 7
def iteratorSeek : Nat := 8
def clear : Nat := 9
def getMany : Nat := 10

end input

/-- Options the caller passes to an iterator, as far as the guest-side code
inspects them: whether keys and values are requested. -/
structure IterOptions where
  keys : Bool
  values : Bool
  deriving DecidableEq

/-- A decoded inbound iterator frame as pushed onto the pending queue by
oniteratordata: iteratorData frames carry `data` and no `error`,
iteratorError frames carry an `error` code (the code routes both through
the same handler and `_next` distinguishes them via the `error` field). -/
structure Frame where
  id : Nat
  seq : Nat
  data : List Bytes
  error : Option String
  deriving DecidableEq

/-- A non-iterator request record in the guest's requests map. Only the
fields the bookkeeping logic reads are modelled: the input tag and the
allocated id (the operation payload and the promise callback are opaque
to the bookkeeping; callback invocations appear as effects). -/
structure Request where
  tag : Nat
  id : Nat
  deriving DecidableEq

/-- The guest-side state of one iterator: the handle fields of
ManyLevelGuestIterator (`kEnded`, `kErrored`, `kPending`, `kCallback`,
`kSeq`) fused with its request record (`kRequest`: id, seq, consumed,
bookmark, seek) which the source keeps in a separate object referenced
from the map. `waiting` models whether `kCallback` is currently set
(a `_next` call is suspended). `limit` is `this.limit` from the
abstract-level base class: `none` models `Infinity`. `dbRetry` caches
`this.db[kRetry]`. -/
structure GuestIterator where
  ended : Bool
  errored : Bool
  pending : List Frame
  waiting : Bool
  seq : Nat
  reqId : Nat
  reqSeq : Nat
  consumed : Nat
  bookmark : Option Bytes
  seek : Option Bytes
  options : IterOptions
  limit : Option Nat
  dbRetry : Bool
  deriving DecidableEq

/-- Wire messages the guest writes to the host, as far as the claims are
concerned: plain request frames are abstracted to their tag and id, and
the iterator-related frames carry the fields of their wire schemas. -/
inductive WireMsg where
  | plain (tag : Nat) (id : Nat)
  | iteratorOpen (id : Nat) (seq : Nat) (options : IterOptions)
      (bookmark : Option Bytes) (seekTarget : Option Bytes)
  | iteratorSeek (id : Nat) (seq : Nat) (target : Bytes)
  | iteratorAck (id : Nat) (seq : Nat) (consumed : Nat)
  | iteratorClose (id : Nat)
  deriving DecidableEq

/-- Observable side effects of the guest-side code. Request callbacks and
iterator waiter callbacks are surfaced as effects carrying the id and,
for failures, the error message and code. -/
inductive Effect where
  | write (m : WireMsg)
  | ref
  | unref
  | emitFlush
  | failRequest (id : Nat) (msg : String) (code : String)
  | resolveRequest (id : Nat) (value : Option Bytes)
  | resolveGetMany (id : Nat) (values : List (Option Bytes))
  | iterErrorCallback (id : Nat) (msg : String) (code : String)
  | iterWake (id : Nat)
  | iterCloseCall (id : Nat)
  | destroyStream
  deriving DecidableEq

/-- Lookup in an association list with natural keys (JS `Map.get`). -/
def assocGet {α : Type} (l : List (Nat × α)) (k : Nat) : Option α :=
  match l with
  | [] => none
  | (k2, v) :: rest => if k2 = k then some v else assocGet rest k

/-- Insertion-order-preserving update (JS `Map.set`): replaces an existing
binding in place, otherwise appends at the end. -/
def assocSet {α : Type} (l : List (Nat × α)) (k : Nat) (v : α) : List (Nat × α) :=
  match l with
  | [] => [(k, v)]
  | (k2, v2) :: rest => if k2 = k then (k, v) :: rest else (k2, v2) :: assocSet rest k v

/-- Deletion of a binding (JS `Map.delete`). -/
def assocDelete {α : Type} (l : List (Nat × α)) (k : Nat) : List (Nat × α) :=
  match l with
  | [] => []
  | (k2, v2) :: rest => if k2 = k then rest else (k2, v2) :: assocDelete rest k

/-- The IdMap class of guest.js: an insertion-ordered map from ids to
records together with the id-allocation counter `_seq`. -/
structure IdMap (α : Type) where
  entries : List (Nat × α)
  seq : Nat
  deriving DecidableEq

namespace IdMap

/-- `size` getter of IdMap. -/
def size {α : Type} (m : IdMap α) : Nat := m.entries.length

/-- The id that IdMap.add will allocate next: the counter is reset to 0
when it has reached 2^32 - 1 and is then pre-incremented, mirroring
`if (seq >= 0xffffffff) seq = 0; map.set(++seq, item)`. -/
def nextId {α : Type} (m : IdMap α) : Nat :=
  (if 4294967295 ≤ m.seq then 0 else m.seq) + 1

/-- IdMap.add: allocate the next id, store the item under it and return
the id. -/
def add {α : Type} (m : IdMap α) (item : α) : IdMap α × Nat :=
  ({ entries := assocSet m.entries m.nextId item, seq := m.nextId }, m.nextId)

/-- IdMap.get. -/
def get {α : Type} (m : IdMap α) (id : Nat) : Option α :=
  assocGet m.entries id

/-- In-place record update used to model mutation of a record obtained
from the map (JS records are mutated through object references). -/
def set {α : Type} (m : IdMap α) (id : Nat) (v : α) : IdMap α :=
  { m with entries := assocSet m.entries id v }

/-- IdMap.remove: delete the binding if present and return the record;
an absent id leaves the map untouched. -/
def removeId {α : Type} (m : IdMap α) (id : Nat) : IdMap α × Option α :=
  match assocGet m.entries id with
  | none => (m, none)
  | some v => ({ m with entries := assocDelete m.entries id }, some v)

/-- IdMap.values, in insertion order. -/
def values {α : Type} (m : IdMap α) : List α :=
  m.entries.map Prod.snd

/-- IdMap.clear: returns the stored records, empties the map and resets
the allocation counter to 0. -/
def clear {α : Type} (m : IdMap α) : IdMap α × List α :=
  ({ entries := [], seq := 0 }, m.values)

end IdMap

/-- Whether `consumed >= this.limit` holds, with `none` playing the role
of the `Infinity` default limit of abstract-level. -/
def limitReached (limit : Option Nat) (consumed : Nat) : Bool :=
  match limit with
  | none => false
  | some l => l ≤ consumed

/-- Extraction of one optional field from the flat entry data, mirroring
`flag ? next.data.shift() : undefined` together with the state of the
array after the shift. -/
def takeField (flag : Bool) (data : List Bytes) : Option Bytes × List Bytes :=
  if flag then (data.head?, data.tail) else (none, data)

/-- The key extracted from an entry per the iterator options. -/
def entryKey (o : IterOptions) (data : List Bytes) : Option Bytes :=
  (takeField o.keys data).1

/-- The value extracted from an entry per the iterator options. -/
def entryValue (o : IterOptions) (data : List Bytes) : Option Bytes :=
  (takeField o.values (takeField o.keys data).2).1

/-- The data remaining in the frame after one entry has been extracted. -/
def entryRest (o : IterOptions) (data : List Bytes) : List Bytes :=
  (takeField o.values (takeField o.keys data).2).2

/-- The possible outcomes of one `_next()` call: yield end (undefined),
suspend waiting for data, raise the error carried by an error frame, or
return one entry. `srcSeq` is the seq field of the frame the entry was
taken from, which the pending queue stores alongside the data. -/
inductive NextOut where
  | wait
  | endOfData
  | errorOut (code : String)
  | entry (srcSeq : Nat) (key : Option Bytes) (value : Option Bytes)
  deriving DecidableEq

namespace GuestIterator

/-- Handling of an inbound iteratorData or iteratorError frame addressed
to this iterator (the body of oniteratordata after the map lookup): a
frame whose seq differs from the current iterator seq is dropped with no
effect; otherwise it is pushed onto the pending queue and a suspended
`_next` is woken. -/
def onData (st : GuestIterator) (f : Frame) : GuestIterator × List Effect :=
  if st.seq ≠ f.seq then (st, [])
  else ({ st with pending := st.pending ++ [f] },
        if st.waiting then [Effect.iterWake st.reqId] else [])

/-- Handling of an inbound iteratorEnd frame addressed to this iterator
(the body of oniteratorend after the map lookup). -/
def onEnd (st : GuestIterator) (seq : Nat) : GuestIterator × List Effect :=
  if st.seq ≠ seq then (st, [])
  else ({ st with ended := true },
        if st.waiting then [Effect.iterWake st.reqId] else [])

/-- ManyLevelGuestIterator._seek: reset the pending queue and the ended
flag, bump the seq (both on the handle and on the request record, and on
the ack message, here represented by `reqSeq`), record the pending seek
target, clear the bookmark and emit the iteratorSeek frame. A seek on an
errored iterator is a no-op. -/
def doSeek (st : GuestIterator) (target : Bytes) : GuestIterator × List Effect :=
  if st.errored then (st, [])
  else
    ({ st with pending := [], ended := false, seq := st.seq + 1, reqSeq := st.seq + 1,
               seek := some target, bookmark := none },
     [Effect.write (WireMsg.iteratorSeek st.reqId (st.seq + 1) target)])

/-- The entry-consuming branch of `_next()`: bump `consumed`, shift the
key and value fields off the head frame per the options, drop the frame
once drained (acknowledging with the new consumed count unless the limit
has been reached), clear the pending seek, and record the key as the
bookmark when retry is enabled. -/
def consume (st : GuestIterator) (f : Frame) (rest : List Frame) :
    GuestIterator × List Effect × NextOut :=
  ({ st with
      consumed := st.consumed + 1,
      pending := if (entryRest st.options f.data).isEmpty then rest
                 else { f with data := entryRest st.options f.data } :: rest,
      seek := none,
      bookmark := if st.dbRetry then entryKey st.options f.data else st.bookmark },
   if (entryRest st.options f.data).isEmpty && !limitReached st.limit (st.consumed + 1)
     then [Effect.write (WireMsg.iteratorAck st.reqId st.reqSeq (st.consumed + 1))]
     else [],
   NextOut.entry f.seq (entryKey st.options f.data) (entryValue st.options f.data))

/-- ManyLevelGuestIterator._next as a step function: yield end once the
limit is reached or the iterator has errored, yield end when ended with
nothing pending, suspend (installing the waiter callback) when nothing
is pending, surface an error frame, and otherwise consume one entry. -/
def next (st : GuestIterator) : GuestIterator × List Effect × NextOut :=
  if limitReached st.limit st.consumed || st.errored then (st, [], NextOut.endOfData)
  else if st.ended && st.pending.isEmpty then (st, [], NextOut.endOfData)
  else
    match st.pending with
    | [] => ({ st with waiting := true }, [], NextOut.wait)
    | f :: rest =>
      match f.error with
      | some e =>
          ({ st with errored := true, ended := true, pending := [] }, [], NextOut.errorOut e)
      | none => st.consume f rest

end GuestIterator

/-- The guest-side bookkeeping state of ManyLevelGuest: the requests and
iterators IdMaps, the retry flag, whether an RPC stream is currently
attached (`kRpcStream` non-null) and whether close() has been called
(`kExplicitClose`). -/
structure Guest where
  requests : IdMap Request
  iterators : IdMap GuestIterator
  retry : Bool
  rpcAttached : Bool
  explicitClose : Bool
  deriving DecidableEq

/-- ManyLevelGuest.isFlushed: both maps are empty. -/
def Guest.isFlushed (g : Guest) : Bool :=
  g.requests.size == 0 && g.iterators.size == 0

/-- The private kFlushed method: whenever it is invoked while both maps
are empty it emits the flush event and releases the keepalive ref;
otherwise it does nothing. -/
def kFlushed (g : Guest) : List Effect :=
  if g.isFlushed then [Effect.emitFlush, Effect.unref] else []

/-- The effects of the private kWrite method for a given message: acquire
the keepalive ref when the combined map size is exactly one, then write
the encoded frame. (Encoding details are abstracted into WireMsg.) -/
def kWriteEffects (g : Guest) (m : WireMsg) : List Effect :=
  (if g.requests.size + g.iterators.size == 1 then [Effect.ref] else []) ++ [Effect.write m]

/-- The wire encoding of a replayed non-iterator request record. -/
def encodeRequest (r : Request) : WireMsg :=
  WireMsg.plain r.tag r.id

/-- The wire encoding of an iterator request record (tag input.iterator):
per the schema it carries the id, the current seq, the options, the
bookmark and the pending seek target (the record fields at encoding
time). -/
def encodeIterator (it : GuestIterator) : WireMsg :=
  WireMsg.iteratorOpen it.reqId it.reqSeq it.options it.bookmark it.seek

/-- The private kAbortRequests method: clear the requests map, failing
every pending request callback with the given message and code; then
clear the iterators map, failing each iterator's suspended waiter
callback (when one is installed) with the same error and invoking
close() on each iterator handle. -/
def kAbortRequests (g : Guest) (msg code : String) : Guest × List Effect :=
  ({ g with requests := (g.requests.clear).1, iterators := (g.iterators.clear).1 },
   (g.requests.clear).2.map (fun r => Effect.failRequest r.id msg code) ++
   ((g.iterators.clear).2.map (fun it =>
     (if it.waiting then [Effect.iterErrorCallback it.reqId msg code] else []) ++
     [Effect.iterCloseCall it.reqId])).flatten)

/-- The cleanup continuation installed by createRpcStream, entered when
the attached proxy stream finishes: detach the stream; then, if retry is
disabled, abort every pending request and iterator with
LEVEL_CONNECTION_LOST and re-check the flushed condition; if retry is
enabled, keep both maps and rewrite every pending request record and
every iterator record to the (fresh) encode stream. -/
def kCleanup (g : Guest) : Guest × List Effect :=
  if g.retry = false then
    ({ (kAbortRequests { g with rpcAttached := false }
          "Connection to leader lost" "LEVEL_CONNECTION_LOST").1 with rpcAttached := false },
     (kAbortRequests { g with rpcAttached := false }
          "Connection to leader lost" "LEVEL_CONNECTION_LOST").2 ++
     kFlushed (kAbortRequests { g with rpcAttached := false }
          "Connection to leader lost" "LEVEL_CONNECTION_LOST").1)
  else
    ({ g with rpcAttached := false },
     (g.requests.values.map (fun r => kWriteEffects { g with rpcAttached := false } (encodeRequest r))).flatten ++
     (g.iterators.values.map (fun it => kWriteEffects { g with rpcAttached := false } (encodeIterator it))).flatten)

/-- Decoded inbound reply frames (host to guest), one constructor per
output tag. -/
inductive OutMsg where
  | callback (id : Nat) (error : Option String) (value : Option Bytes)
  | iteratorData (id : Nat) (seq : Nat) (data : List Bytes)
  | iteratorEnd (id : Nat) (seq : Nat)
  | iteratorError (id : Nat) (seq : Nat) (errorCode : String)
  | getManyCallback (id : Nat) (error : Option String) (values : List (Option Bytes))
  deriving DecidableEq

/-- The oniteratordata handler: look up the addressed iterator record; an
unknown id or a seq mismatch leaves the guest unchanged with no effect;
otherwise the frame is pushed onto the iterator's pending queue and a
suspended next() is woken. -/
def oniteratordata (g : Guest) (res : Frame) : Guest × List Effect :=
  match g.iterators.get res.id with
  | none => (g, [])
  | some it =>
    if it.seq ≠ res.seq then (g, [])
    else ({ g with iterators := g.iterators.set res.id (it.onData res).1 }, (it.onData res).2)

/-- The oniteratorend handler: look up the addressed iterator record; an
unknown id or a seq mismatch leaves the guest unchanged with no effect;
otherwise the iterator is marked ended and a suspended next() is woken. -/
def oniteratorend (g : Guest) (id seq : Nat) : Guest × List Effect :=
  match g.iterators.get id with
  | none => (g, [])
  | some it =>
    if it.seq ≠ seq then (g, [])
    else ({ g with iterators := g.iterators.set id (it.onEnd seq).1 }, (it.onEnd seq).2)

/-- The oncallback handler: remove the request record at the id (the map
is untouched when the id is unknown, in which case nothing further
happens) and fire its callback with the reported error code or with the
value (the wire null sentinel and the absent value both map to `none`). -/
def oncallback (g : Guest) (id : Nat) (error : Option String) (value : Option Bytes) :
    Guest × List Effect :=
  match g.requests.removeId id with
  | (requests2, none) => ({ g with requests := requests2 }, [])
  | (requests2, some r) =>
    ({ g with requests := requests2 },
     [match error with
      | some e => Effect.failRequest r.id "Could not get value" e
      | none => Effect.resolveRequest r.id value])

/-- The ongetmanycallback handler, analogous to oncallback. -/
def ongetmanycallback (g : Guest) (id : Nat) (error : Option String)
    (values : List (Option Bytes)) : Guest × List Effect :=
  match g.requests.removeId id with
  | (requests2, none) => ({ g with requests := requests2 }, [])
  | (requests2, some r) =>
    ({ g with requests := requests2 },
     [match error with
      | some e => Effect.failRequest r.id "Could not get values" e
      | none => Effect.resolveGetMany r.id values])

/-- The tag switch of the decode data handler, routing one decoded reply
frame to its handler (iteratorError frames share the oniteratordata
path, carrying their error code in the frame's error field). -/
def dispatchMsg (g : Guest) : OutMsg → Guest × List Effect
  | OutMsg.callback id e v => oncallback g id e v
  | OutMsg.iteratorData id seq data =>
      oniteratordata g { id := id, seq := seq, data := data, error := none }
  | OutMsg.iteratorError id seq e =>
      oniteratordata g { id := id, seq := seq, data := [], error := some e }
  | OutMsg.iteratorEnd id seq => oniteratorend g id seq
  | OutMsg.getManyCallback id e vs => ongetmanycallback g id e vs

/-- The complete decode data handler for one decoded frame: dispatch on
the tag, then unconditionally re-check the flushed condition. -/
def ondata (g : Guest) (m : OutMsg) : Guest × List Effect :=
  ((dispatchMsg g m).1, (dispatchMsg g m).2 ++ kFlushed (dispatchMsg g m).1)

/-- Whether the guest holds a record for the frame's id in the map the
frame addresses (requests for the callback replies, iterators for the
iterator frames). -/
def hasRecordFor (g : Guest) : OutMsg → Bool
  | OutMsg.callback id _ _ => (g.requests.get id).isSome
  | OutMsg.iteratorData id _ _ => (g.iterators.get id).isSome
  | OutMsg.iteratorError id _ _ => (g.iterators.get id).isSome
  | OutMsg.iteratorEnd id _ => (g.iterators.get id).isSome
  | OutMsg.getManyCallback id _ _ => (g.requests.get id).isSome

/-- ManyLevelGuest.createRpcStream, as far as attachment state goes: a
second attachment while one is active throws (the guest is untouched);
otherwise the proxy is attached. The returned value carries the error or
unit success. -/
def createRpcStream (g : Guest) : Guest × Except String Unit :=
  if g.rpcAttached then (g, Except.error "Only one rpc stream can be active")
  else ({ g with rpcAttached := true }, Except.ok ())

/-- ManyLevelGuest.connect, the backwards-compatibility alias that just
calls createRpcStream. -/
def connect (g : Guest) : Guest × Except String Unit :=
  createRpcStream g

/-- ManyLevelGuest._close: record the explicit close, abort every pending
request and iterator with LEVEL_DATABASE_NOT_OPEN, and destroy the RPC
stream when one is attached. -/
def guestClose (g : Guest) : Guest × List Effect :=
  if (kAbortRequests { g with explicitClose := true }
        "Aborted on database close()" "LEVEL_DATABASE_NOT_OPEN").1.rpcAttached then
    ({ (kAbortRequests { g with explicitClose := true }
          "Aborted on database close()" "LEVEL_DATABASE_NOT_OPEN").1 with rpcAttached := false },
     (kAbortRequests { g with explicitClose := true }
          "Aborted on database close()" "LEVEL_DATABASE_NOT_OPEN").2 ++ [Effect.destroyStream])
  else
    (kAbortRequests { g with explicitClose := true }
       "Aborted on database close()" "LEVEL_DATABASE_NOT_OPEN")

/-- The ManyLevelGuestIterator constructor: when the guest was created
with retry enabled, force options.keys to true (keys are needed to know
where to restart); allocate an id in the iterators map for the fresh
record (seq 0, consumed 0, no bookmark, no pending seek) and write the
iterator request frame. -/
def mkIterator (g : Guest) (options : IterOptions) (limit : Option Nat) :
    Guest × GuestIterator × List Effect :=
  ({ g with iterators := (g.iterators.add (mkIteratorState g options limit)).1 },
   mkIteratorState g options limit,
   kWriteEffects { g with iterators := (g.iterators.add (mkIteratorState g options limit)).1 }
     (encodeIterator (mkIteratorState g options limit)))
where
  /-- The freshly constructed iterator state. -/
  mkIteratorState (g : Guest) (options : IterOptions) (limit : Option Nat) : GuestIterator :=
    { ended := false, errored := false, pending := [], waiting := false, seq := 0,
      reqId := g.iterators.nextId, reqSeq := 0, consumed := 0, bookmark := none,
      seek := none,
      options := if g.retry then { options with keys := true } else options,
      limit := limit, dbRetry := g.retry }

/-- Iterator-level events for executions of one guest iterator: an
inbound data or error frame addressed to it, an inbound end frame, a
seek() call and a next() call. -/
inductive IterEv where
  | frame (f : Frame)
  | endFrame (seq : Nat)
  | seekCall (target : Bytes)
  | nextCall
  deriving DecidableEq

/-- One step of the guest iterator state machine, returning the new state
and, for a next() call, its outcome. -/
def iterStep (st : GuestIterator) : IterEv → GuestIterator × Option NextOut
  | IterEv.frame f => ((st.onData f).1, none)
  | IterEv.endFrame s => ((st.onEnd s).1, none)
  | IterEv.seekCall t => ((st.doSeek t).1, none)
  | IterEv.nextCall => ((st.next).1, some (st.next).2.2)

/-- Run the guest iterator state machine over a list of events,
collecting the outcomes of the next() calls in order. -/
def runIter (st : GuestIterator) : List IterEv → GuestIterator × List NextOut
  | [] => (st, [])
  | ev :: evs =>
    ((runIter (iterStep st ev).1 evs).1,
     (iterStep st ev).2.toList ++ (runIter (iterStep st ev).1 evs).2)

/-- The wire messages among a list of effects, in order. -/
def writesOf (l : List Effect) : List WireMsg :=
  l.filterMap (fun e => match e with | Effect.write m => some m | _ => none)

/-- Whether the next entry extracted by next() will drain the head frame
of the pending queue. -/
def batchDrained (st : GuestIterator) : Bool :=
  match st.pending with
  | [] => false
  | f :: _ => (entryRest st.options f.data).isEmpty

/-- The pending-queue seq invariant: every frame sitting in the pending
queue carries the iterator's current seq. -/
def pendingInv (st : GuestIterator) : Prop :=
  ∀ f ∈ st.pending, f.seq = st.seq

/-- A guest with no pending work and an attached stream, used as a
concrete evaluation point. -/
def idleGuest : Guest :=
  { requests := { entries := [], seq := 0 }, iterators := { entries := [], seq := 0 },
    retry := false, rpcAttached := true, explicitClose := false }

/-- A concrete pending get request. -/
def pendingReq : Request := { tag := 1, id := 1 }

/-- A concrete in-flight iterator record of a retry-enabled guest, with a
suspended next(), a bookmark and a pending seek. -/
def sampleIter : GuestIterator :=
  { ended := false, errored := false, pending := [], waiting := true, seq := 2,
    reqId := 4, reqSeq := 2, consumed := 3, bookmark := some [7], seek := some [8],
    options := { keys := true, values := true }, limit := none, dbRetry := true }

/-- A concrete retry-enabled guest holding one pending request and one
in-flight iterator. -/
def retryGuest : Guest :=
  { requests := { entries := [(1, pendingReq)], seq := 1 },
    iterators := { entries := [(4, sampleIter)], seq := 4 },
    retry := true, rpcAttached := true, explicitClose := false }

/-- The sample iterator as owned by a guest without retry. -/
def waitIter : GuestIterator :=
  { sampleIter with dbRetry := false }

/-- A concrete no-retry guest holding one pending request and one
in-flight iterator with a suspended next(). -/
def lostGuest : Guest :=
  { requests := { entries := [(1, pendingReq)], seq := 1 },
    iterators := { entries := [(4, waitIter)], seq := 4 },
    retry := false, rpcAttached := true, explicitClose := false }

/-- A concrete iterator that has consumed up to its limit. -/
def limitIter : GuestIterator :=
  { ended := false, errored := false,
    pending := [{ id := 4, seq := 0, data := [[1], [2]], error := none }], waiting := false,
    seq := 0, reqId := 4, reqSeq := 0, consumed := 2, bookmark := none, seek := none,
    options := { keys := true, values := true }, limit := some 2, dbRetry := false }

/-- A concrete iterator about to consume the last entry of its head
frame, below its limit, under retry. -/
def drainIter : GuestIterator :=
  { ended := false, errored := false,
    pending := [{ id := 4, seq := 0, data := [[1], [2]], error := none }], waiting := false,
    seq := 0, reqId := 4, reqSeq := 0, consumed := 0, bookmark := none, seek := some [0],
    options := { keys := true, values := true }, limit := some 5, dbRetry := true }

/-- Looking up a key right after setting it yields the stored value. -/
theorem assocGet_assocSet_self {α : Type} (l : List (Nat × α)) (k : Nat) (v : α) :
    assocGet (assocSet l k v) k = some v := by
  induction l with
  | nil => simp [assocSet, assocGet]
  | cons hd tl ih =>
    obtain ⟨k2, v2⟩ := hd
    by_cases h : k2 = k
    · simp [assocSet, assocGet, h]
    · simp [assocSet, assocGet, h, ih]

/-- C8 (counterexample): at the wrap point the allocator does not hand
out the id 0. With the internal counter at 2^32 - 1, the next allocated
id is 1, not 0, refuting that the counter wraps to 0 as an allocated id
and that 0 is a valid allocated id. -/
theorem id_allocator_wrap_skips_zero :
    (IdMap.add { entries := ([] : List (Nat × Nat)), seq := 4294967295 } 0).2 = 1 ∧
    (IdMap.add { entries := ([] : List (Nat × Nat)), seq := 4294967295 } 0).2 ≠ 0 := by
  constructor
  · rfl
  · decide

/-- C8 (amended): the allocator resets its internal counter to 0 upon
reaching 2^32 - 1 and pre-increments on every allocation, so the
allocated id is the reset counter plus one: ids increase monotonically
from 1, wrap from 2^32 - 1 back to 1, and the id 0 is never allocated;
the freshly allocated id maps to the stored record. -/
theorem id_allocator_characterization {α : Type} (m : IdMap α) (x : α) :
    (m.add x).2 = (if 4294967295 ≤ m.seq then 0 else m.seq) + 1 ∧
    (m.add x).2 ≠ 0 ∧
    (m.add x).1.seq = (m.add x).2 ∧
    (m.add x).1.get ((m.add x).2) = some x := by
  refine ⟨rfl, Nat.succ_ne_zero _, rfl, ?_⟩
  simp [IdMap.add, IdMap.get, assocGet_assocSet_self]

/-- C9: while an RPC stream is attached, a second createRpcStream call
fails with the single-rpc-stream error, the guest state (and hence the
existing attachment) is untouched, and connect is an alias for
createRpcStream. -/
theorem second_rpc_stream_rejected (g : Guest) (h : g.rpcAttached = true) :
    createRpcStream g = (g, Except.error "Only one rpc stream can be active") ∧
    connect g = createRpcStream g := by
  constructor
  · simp [createRpcStream, h]
  · rfl

/-- Witness for C9 at a concrete attached guest. -/
theorem second_rpc_stream_rejected_witness :
    createRpcStream idleGuest = (idleGuest, Except.error "Only one rpc stream can be active") ∧
    connect idleGuest = createRpcStream idleGuest :=
  second_rpc_stream_rejected idleGuest rfl

/-- C6: a reply frame of any kind whose id has no record in the
corresponding guest map is dispatched as a no-op: the guest state is
unchanged and no callback effect is produced. -/
theorem unknown_id_reply_noop (g : Guest) (m : OutMsg) (h : hasRecordFor g m = false) :
    dispatchMsg g m = (g, []) := by
  cases m with
  | callback id e v =>
    have hn : g.requests.get id = none := by
      cases hg : g.requests.get id with
      | none => rfl
      | some r => rw [hasRecordFor, hg] at h; simp at h
    simp only [IdMap.get] at hn
    simp [dispatchMsg, oncallback, IdMap.removeId, hn]
  | getManyCallback id e vs =>
    have hn : g.requests.get id = none := by
      cases hg : g.requests.get id with
      | none => rfl
      | some r => rw [hasRecordFor, hg] at h; simp at h
    simp only [IdMap.get] at hn
    simp [dispatchMsg, ongetmanycallback, IdMap.removeId, hn]
  | iteratorData id seq data =>
    have hn : g.iterators.get id = none := by
      cases hg : g.iterators.get id with
      | none => rfl
      | some r => rw [hasRecordFor, hg] at h; simp at h
    simp [dispatchMsg, oniteratordata, hn]
  | iteratorError id seq e =>
    have hn : g.iterators.get id = none := by
      cases hg : g.iterators.get id with
      | none => rfl
      | some r => rw [hasRecordFor, hg] at h; simp at h
    simp [dispatchMsg, oniteratordata, hn]
  | iteratorEnd id seq =>
    have hn : g.iterators.get id = none := by
      cases hg : g.iterators.get id with
      | none => rfl
      | some r => rw [hasRecordFor, hg] at h; simp at h
    simp [dispatchMsg, oniteratorend, hn]

/-- Witness for C6: a callback reply addressed to the unknown id 9 on a
guest with empty maps leaves the guest unchanged with no effect. -/
theorem unknown_id_reply_noop_witness :
    dispatchMsg idleGuest (OutMsg.callback 9 none none) = (idleGuest, []) :=
  unknown_id_reply_noop idleGuest (OutMsg.callback 9 none none) (by decide)

/-- The tag switch itself never emits the flush event; only the trailing
kFlushed re-check does. -/
theorem emitFlush_not_mem_dispatch (g : Guest) (m : OutMsg) :
    Effect.emitFlush ∉ (dispatchMsg g m).2 := by
  cases m with
  | callback id e v =>
    simp only [dispatchMsg, oncallback]
    rcases hr : g.requests.removeId id with ⟨m2, r⟩
    cases r with
    | none => simp
    | some req => cases e <;> simp
  | getManyCallback id e vs =>
    simp only [dispatchMsg, ongetmanycallback]
    rcases hr : g.requests.removeId id with ⟨m2, r⟩
    cases r with
    | none => simp
    | some req => cases e <;> simp
  | iteratorData id seq data =>
    simp only [dispatchMsg, oniteratordata]
    cases hg : g.iterators.get id with
    | none => simp
    | some it =>
      by_cases hs : it.seq ≠ seq
      · simp [hs]
      · simp only [hs, if_false, GuestIterator.onData]
        split <;> simp
  | iteratorError id seq e =>
    simp only [dispatchMsg, oniteratordata]
    cases hg : g.iterators.get id with
    | none => simp
    | some it =>
      by_cases hs : it.seq ≠ seq
      · simp [hs]
      · simp only [hs, if_false, GuestIterator.onData]
        split <;> simp
  | iteratorEnd id seq =>
    simp only [dispatchMsg, oniteratorend]
    cases hg : g.iterators.get id with
    | none => simp
    | some it =>
      by_cases hs : it.seq ≠ seq
      · simp [hs]
      · simp only [hs, if_false, GuestIterator.onEnd]
        split <;> simp

/-- C4 (counterexample): with both maps already empty, processing a
stale callback frame leaves the state unchanged (so the combined map
size never transitions from non-zero to zero) yet emits flush, and a
second stale frame emits flush again although the maps never became
non-empty in between. -/
theorem flush_emitted_without_transition :
    idleGuest.isFlushed = true ∧
    (ondata idleGuest (OutMsg.callback 7 none none)).1 = idleGuest ∧
    Effect.emitFlush ∈ (ondata idleGuest (OutMsg.callback 7 none none)).2 ∧
    Effect.emitFlush ∈
      (ondata (ondata idleGuest (OutMsg.callback 7 none none)).1 (OutMsg.callback 8 none none)).2 := by
  decide

/-- writesOf distributes over concatenation of effect lists. -/
theorem writesOf_append (a b : List Effect) :
    writesOf (a ++ b) = writesOf a ++ writesOf b := by
  simp [writesOf, List.filterMap_append]

/-- A kWrite call contributes exactly its message to the wire. -/
theorem writesOf_kWriteEffects (g : Guest) (m : WireMsg) :
    writesOf (kWriteEffects g m) = [m] := by
  simp only [kWriteEffects, writesOf, List.filterMap_append]
  split <;> simp [List.filterMap]

/-- Replaying a list of records through kWrite puts exactly their
encodings on the wire, in order. -/
theorem writesOf_replay {β : Type} (g : Guest) (enc : β → WireMsg) (l : List β) :
    writesOf ((l.map (fun x => kWriteEffects g (enc x))).flatten) = l.map enc := by
  induction l with
  | nil => rfl
  | cons hd tl ih =>
    simp only [List.map_cons, List.flatten_cons]
    rw [writesOf_append, writesOf_kWriteEffects, ih]
    rfl

/-- The state component of kAbortRequests: both maps are cleared and
nothing else changes. -/
theorem kAbortRequests_state (g : Guest) (msg code : String) :
    (kAbortRequests g msg code).1 =
      { g with requests := { entries := [], seq := 0 },
               iterators := { entries := [], seq := 0 } } := rfl

/-- The effects of kAbortRequests: the request failure callbacks in map
order, then per iterator the waiter failure (when one is suspended)
followed by the handle close call. -/
theorem kAbortRequests_effects (g : Guest) (msg code : String) :
    (kAbortRequests g msg code).2 =
      g.requests.values.map (fun r => Effect.failRequest r.id msg code) ++
      ((g.iterators.values.map (fun it =>
        (if it.waiting then [Effect.iterErrorCallback it.reqId msg code] else []) ++
        [Effect.iterCloseCall it.reqId])).flatten) := rfl

/-- Every pending request gets its failure callback from kAbortRequests. -/
theorem mem_abort_fail (g : Guest) (msg code : String) (r : Request)
    (hr : r ∈ g.requests.values) :
    Effect.failRequest r.id msg code ∈ (kAbortRequests g msg code).2 := by
  rw [kAbortRequests_effects]
  exact List.mem_append.mpr (Or.inl (List.mem_map.mpr ⟨r, hr, rfl⟩))

/-- Every pending iterator with a suspended next() gets its waiter
failure callback from kAbortRequests. -/
theorem mem_abort_iterErr (g : Guest) (msg code : String) (it : GuestIterator)
    (hit : it ∈ g.iterators.values) (hw : it.waiting = true) :
    Effect.iterErrorCallback it.reqId msg code ∈ (kAbortRequests g msg code).2 := by
  rw [kAbortRequests_effects]
  refine List.mem_append.mpr (Or.inr (List.mem_flatten.mpr
    ⟨_, List.mem_map.mpr ⟨it, hit, rfl⟩, ?_⟩))
  simp [hw]

/-- Every pending iterator handle is closed by kAbortRequests. -/
theorem mem_abort_iterClose (g : Guest) (msg code : String) (it : GuestIterator)
    (hit : it ∈ g.iterators.values) :
    Effect.iterCloseCall it.reqId ∈ (kAbortRequests g msg code).2 := by
  rw [kAbortRequests_effects]
  refine List.mem_append.mpr (Or.inr (List.mem_flatten.mpr
    ⟨_, List.mem_map.mpr ⟨it, hit, rfl⟩, ?_⟩))
  simp

/-- C2: with retry enabled, transport-finish cleanup preserves the
requests map and the iterators map unchanged, and replays exactly the
pending request records followed by the iterator records onto the wire;
each replayed iterator frame carries that record's current seq, bookmark
and pending seek target. -/
theorem retry_cleanup_preserves_and_replays (g : Guest) (h : g.retry = true) :
    (kCleanup g).1.requests = g.requests ∧
    (kCleanup g).1.iterators = g.iterators ∧
    writesOf (kCleanup g).2 =
      g.requests.values.map encodeRequest ++ g.iterators.values.map encodeIterator ∧
    ∀ it ∈ g.iterators.values,
      Effect.write (WireMsg.iteratorOpen it.reqId it.reqSeq it.options it.bookmark it.seek) ∈
        (kCleanup g).2 := by
  have hcl : kCleanup g = ({ g with rpcAttached := false },
      (g.requests.values.map
        (fun r => kWriteEffects { g with rpcAttached := false } (encodeRequest r))).flatten ++
      (g.iterators.values.map
        (fun it => kWriteEffects { g with rpcAttached := false } (encodeIterator it))).flatten) := by
    simp [kCleanup, h]
  refine ⟨by rw [hcl], by rw [hcl], ?_, ?_⟩
  · rw [hcl]
    show writesOf (_ ++ _) = _
    rw [writesOf_append, writesOf_replay, writesOf_replay]
  · intro it hit
    rw [hcl]
    refine List.mem_append.mpr (Or.inr (List.mem_flatten.mpr
      ⟨kWriteEffects { g with rpcAttached := false } (encodeIterator it),
       List.mem_map.mpr ⟨it, hit, rfl⟩, ?_⟩))
    simp [kWriteEffects, encodeIterator]

/-- Witness for C2 at a concrete retry guest with one pending request
and one in-flight iterator. -/
theorem retry_cleanup_preserves_and_replays_witness :
    (kCleanup retryGuest).1.requests = retryGuest.requests ∧
    (kCleanup retryGuest).1.iterators = retryGuest.iterators ∧
    Effect.write (WireMsg.iteratorOpen 4 2 { keys := true, values := true }
      (some [7]) (some [8])) ∈ (kCleanup retryGuest).2 := by
  refine ⟨(retry_cleanup_preserves_and_replays retryGuest rfl).1,
          (retry_cleanup_preserves_and_replays retryGuest rfl).2.1, ?_⟩
  exact (retry_cleanup_preserves_and_replays retryGuest rfl).2.2.2 sampleIter (by decide)

/-- C3: with retry disabled, transport-finish cleanup empties both maps,
fails every pending request callback and every suspended iterator waiter
with LEVEL_CONNECTION_LOST, closes every pending iterator handle, and
emits the flush event. -/
theorem no_retry_cleanup_aborts_all (g : Guest) (h : g.retry = false) :
    (kCleanup g).1.requests.size = 0 ∧
    (kCleanup g).1.iterators.size = 0 ∧
    (∀ r ∈ g.requests.values,
       Effect.failRequest r.id "Connection to leader lost" "LEVEL_CONNECTION_LOST" ∈
         (kCleanup g).2) ∧
    (∀ it ∈ g.iterators.values, it.waiting = true →
       Effect.iterErrorCallback it.reqId "Connection to leader lost" "LEVEL_CONNECTION_LOST" ∈
         (kCleanup g).2) ∧
    (∀ it ∈ g.iterators.values,
       Effect.iterCloseCall it.reqId ∈ (kCleanup g).2) ∧
    Effect.emitFlush ∈ (kCleanup g).2 := by
  have hcl : kCleanup g =
      ({ (kAbortRequests { g with rpcAttached := false }
            "Connection to leader lost" "LEVEL_CONNECTION_LOST").1 with rpcAttached := false },
       (kAbortRequests { g with rpcAttached := false }
            "Connection to leader lost" "LEVEL_CONNECTION_LOST").2 ++
       kFlushed (kAbortRequests { g with rpcAttached := false }
            "Connection to leader lost" "LEVEL_CONNECTION_LOST").1) := by
    simp [kCleanup, h]
  have hfl : kFlushed (kAbortRequests { g with rpcAttached := false }
      "Connection to leader lost" "LEVEL_CONNECTION_LOST").1 =
      [Effect.emitFlush, Effect.unref] := rfl
  refine ⟨by rw [hcl]; rfl, by rw [hcl]; rfl, ?_, ?_, ?_, ?_⟩
  · intro r hr
    rw [hcl]
    exact List.mem_append.mpr (Or.inl (mem_abort_fail _ _ _ r hr))
  · intro it hit hw
    rw [hcl]
    exact List.mem_append.mpr (Or.inl (mem_abort_iterErr _ _ _ it hit hw))
  · intro it hit
    rw [hcl]
    exact List.mem_append.mpr (Or.inl (mem_abort_iterClose _ _ _ it hit))
  · rw [hcl]
    rw [show (({ (kAbortRequests { g with rpcAttached := false }
            "Connection to leader lost" "LEVEL_CONNECTION_LOST").1 with rpcAttached := false },
       (kAbortRequests { g with rpcAttached := false }
            "Connection to leader lost" "LEVEL_CONNECTION_LOST").2 ++
       kFlushed (kAbortRequests { g with rpcAttached := false }
            "Connection to leader lost" "LEVEL_CONNECTION_LOST").1) : Guest × List Effect).2 =
       (kAbortRequests { g with rpcAttached := false }
            "Connection to leader lost" "LEVEL_CONNECTION_LOST").2 ++
       kFlushed (kAbortRequests { g with rpcAttached := false }
            "Connection to leader lost" "LEVEL_CONNECTION_LOST").1 from rfl, hfl]
    exact List.mem_append.mpr (Or.inr (List.mem_cons_self _ _))

/-- Witness for C3 at a concrete no-retry guest with one pending request
and one iterator with a suspended next(). -/
theorem no_retry_cleanup_aborts_all_witness :
    (kCleanup lostGuest).1.requests.size = 0 ∧
    Effect.failRequest 1 "Connection to leader lost" "LEVEL_CONNECTION_LOST" ∈
      (kCleanup lostGuest).2 ∧
    Effect.iterErrorCallback 4 "Connection to leader lost" "LEVEL_CONNECTION_LOST" ∈
      (kCleanup lostGuest).2 ∧
    Effect.iterCloseCall 4 ∈ (kCleanup lostGuest).2 ∧
    Effect.emitFlush ∈ (kCleanup lostGuest).2 := by
  refine ⟨(no_retry_cleanup_aborts_all lostGuest rfl).1, ?_, ?_, ?_,
          (no_retry_cleanup_aborts_all lostGuest rfl).2.2.2.2.2⟩
  · exact (no_retry_cleanup_aborts_all lostGuest rfl).2.2.1 pendingReq (by decide)
  · exact (no_retry_cleanup_aborts_all lostGuest rfl).2.2.2.1 waitIter (by decide) (by decide)
  · exact (no_retry_cleanup_aborts_all lostGuest rfl).2.2.2.2.1 waitIter (by decide)

/-- C7: closing the guest empties both maps, fails every pending request
callback and every suspended iterator waiter with
LEVEL_DATABASE_NOT_OPEN, closes every pending iterator handle, and
destroys the attached RPC stream when one is attached (ending with no
attachment either way). -/
theorem close_aborts_with_not_open (g : Guest) :
    (guestClose g).1.requests.size = 0 ∧
    (guestClose g).1.iterators.size = 0 ∧
    (guestClose g).1.rpcAttached = false ∧
    (∀ r ∈ g.requests.values,
       Effect.failRequest r.id "Aborted on database close()" "LEVEL_DATABASE_NOT_OPEN" ∈
         (guestClose g).2) ∧
    (∀ it ∈ g.iterators.values, it.waiting = true →
       Effect.iterErrorCallback it.reqId "Aborted on database close()" "LEVEL_DATABASE_NOT_OPEN" ∈
         (guestClose g).2) ∧
    (∀ it ∈ g.iterators.values,
       Effect.iterCloseCall it.reqId ∈ (guestClose g).2) ∧
    (g.rpcAttached = true → Effect.destroyStream ∈ (guestClose g).2) := by
  have hcond : (kAbortRequests { g with explicitClose := true }
      "Aborted on database close()" "LEVEL_DATABASE_NOT_OPEN").1.rpcAttached = g.rpcAttached := rfl
  cases hA : g.rpcAttached with
  | true =>
    have hcl : guestClose g =
        ({ (kAbortRequests { g with explicitClose := true }
              "Aborted on database close()" "LEVEL_DATABASE_NOT_OPEN").1 with rpcAttached := false },
         (kAbortRequests { g with explicitClose := true }
              "Aborted on database close()" "LEVEL_DATABASE_NOT_OPEN").2 ++ [Effect.destroyStream]) := by
      rw [guestClose, hcond, hA]
      simp
    refine ⟨by rw [hcl]; rfl, by rw [hcl]; rfl, by rw [hcl], ?_, ?_, ?_, ?_⟩
    · intro r hr
      rw [hcl]
      exact List.mem_append.mpr (Or.inl (mem_abort_fail _ _ _ r hr))
    · intro it hit hw
      rw [hcl]
      exact List.mem_append.mpr (Or.inl (mem_abort_iterErr _ _ _ it hit hw))
    · intro it hit
      rw [hcl]
      exact List.mem_append.mpr (Or.inl (mem_abort_iterClose _ _ _ it hit))
    · intro hT
      rw [hcl]
      exact List.mem_append.mpr (Or.inr (List.mem_cons_self _ _))
  | false =>
    have hcl : guestClose g =
        kAbortRequests { g with explicitClose := true }
          "Aborted on database close()" "LEVEL_DATABASE_NOT_OPEN" := by
      rw [guestClose, hcond, hA]
      simp
    refine ⟨by rw [hcl]; rfl, by rw [hcl]; rfl, by rw [hcl, kAbortRequests_state]; exact hA,
            ?_, ?_, ?_, ?_⟩
    · intro r hr
      rw [hcl]
      exact mem_abort_fail _ _ _ r hr
    · intro it hit hw
      rw [hcl]
      exact mem_abort_iterErr _ _ _ it hit hw
    · intro it hit
      rw [hcl]
      exact mem_abort_iterClose _ _ _ it hit
    · intro hT
      exact absurd hT (by decide)

/-- Witness for C7 at a concrete attached guest with one pending request
and one iterator with a suspended next(). -/
theorem close_aborts_with_not_open_witness :
    (guestClose lostGuest).1.requests.size = 0 ∧
    Effect.failRequest 1 "Aborted on database close()" "LEVEL_DATABASE_NOT_OPEN" ∈
      (guestClose lostGuest).2 ∧
    Effect.iterErrorCallback 4 "Aborted on database close()" "LEVEL_DATABASE_NOT_OPEN" ∈
      (guestClose lostGuest).2 ∧
    Effect.iterCloseCall 4 ∈ (guestClose lostGuest).2 ∧
    Effect.destroyStream ∈ (guestClose lostGuest).2 := by
  refine ⟨(close_aborts_with_not_open lostGuest).1, ?_, ?_, ?_, ?_⟩
  · exact (close_aborts_with_not_open lostGuest).2.2.2.1 pendingReq (by decide)
  · exact (close_aborts_with_not_open lostGuest).2.2.2.2.1 waitIter (by decide) (by decide)
  · exact (close_aborts_with_not_open lostGuest).2.2.2.2.2.1 waitIter (by decide)
  · exact (close_aborts_with_not_open lostGuest).2.2.2.2.2.2 rfl

/-- Inversion for next(): an entry outcome can only arise from the
consuming branch, on a head frame of the pending queue that carries no
error. -/
theorem next_entry_cases (st st2 : GuestIterator) (effs : List Effect)
    (s : Nat) (k v : Option Bytes) (h : st.next = (st2, effs, NextOut.entry s k v)) :
    ∃ f rest, st.pending = f :: rest ∧ f.error = none ∧
      st.consume f rest = (st2, effs, NextOut.entry s k v) := by
  unfold GuestIterator.next at h
  split at h
  · simp at h
  · split at h
    · simp at h
    · split at h
      · simp at h
      · split at h
        · simp at h
        · rename_i x1 f rest hp x2 he
          exact ⟨f, rest, hp, he, h⟩

/-- C5: next() yields end with no state change and no effect once the
consumed count has reached the limit or the iterator has errored; and a
next() that returns an entry bumps consumed by one and sends an
iteratorAck carrying the new consumed count exactly when the entry
drained its batch and the limit has not been reached, omitting the ack
otherwise. -/
theorem next_limit_and_ack :
    (∀ st : GuestIterator, (limitReached st.limit st.consumed || st.errored) = true →
       st.next = (st, [], NextOut.endOfData)) ∧
    (∀ (st st2 : GuestIterator) (effs : List Effect) (s : Nat) (k v : Option Bytes),
       st.next = (st2, effs, NextOut.entry s k v) →
       st2.consumed = st.consumed + 1 ∧
       effs = (if batchDrained st && !limitReached st.limit (st.consumed + 1)
               then [Effect.write (WireMsg.iteratorAck st.reqId st.reqSeq (st.consumed + 1))]
               else [])) := by
  constructor
  · intro st h
    unfold GuestIterator.next
    rw [if_pos h]
  · intro st st2 effs s k v h
    obtain ⟨f, rest, hp, he, hc⟩ := next_entry_cases st st2 effs s k v h
    unfold GuestIterator.consume at hc
    simp only [Prod.mk.injEq] at hc
    obtain ⟨hst2, heffs, hout⟩ := hc
    have hbd : batchDrained st = (entryRest st.options f.data).isEmpty := by
      unfold batchDrained
      rw [hp]
    constructor
    · rw [← hst2]
    · rw [hbd, ← heffs]

/-- Witness for C5: at the limit, next() on a concrete iterator yields
end untouched; below the limit, a concrete batch-draining next() bumps
consumed and acknowledges with the new count. -/
theorem next_limit_and_ack_witness :
    limitIter.next = (limitIter, [], NextOut.endOfData) ∧
    ((drainIter.next).1.consumed = drainIter.consumed + 1 ∧
     (drainIter.next).2.1 =
       (if batchDrained drainIter && !limitReached drainIter.limit (drainIter.consumed + 1)
        then [Effect.write (WireMsg.iteratorAck drainIter.reqId drainIter.reqSeq
                (drainIter.consumed + 1))]
        else [])) :=
  ⟨next_limit_and_ack.1 limitIter (by decide),
   next_limit_and_ack.2 drainIter (drainIter.next).1 ((drainIter.next).2.1)
     0 (some [1]) (some [2]) (by decide)⟩

/-- C10: when the guest has retry enabled, a constructed iterator has
options.keys forced to true even if the caller passed keys false; and
under retry every entry returned by next() has its key recorded as the
new bookmark, the key being the first data field of the head frame when
keys are on. -/
theorem retry_forces_keys_and_bookmarks :
    (∀ (g : Guest) (opts : IterOptions) (lim : Option Nat), g.retry = true →
       (mkIterator g opts lim).2.1.options.keys = true) ∧
    (∀ (st st2 : GuestIterator) (effs : List Effect) (s : Nat) (k v : Option Bytes),
       st.dbRetry = true → st.next = (st2, effs, NextOut.entry s k v) →
       st2.bookmark = k ∧
       (st.options.keys = true → ∀ f rest, st.pending = f :: rest → k = f.data.head?)) := by
  constructor
  · intro g opts lim h
    simp [mkIterator, mkIterator.mkIteratorState, h]
  · intro st st2 effs s k v hr h
    obtain ⟨f, rest, hp, he, hc⟩ := next_entry_cases st st2 effs s k v h
    unfold GuestIterator.consume at hc
    simp only [Prod.mk.injEq] at hc
    obtain ⟨hst2, heffs, hout⟩ := hc
    simp only [NextOut.entry.injEq] at hout
    obtain ⟨hs, hk, hv⟩ := hout
    constructor
    · rw [← hst2]
      simp only [hr, if_true]
      exact hk
    · intro hkeys f2 rest2 hp2
      have hf : f2 = f := by
        rw [hp] at hp2
        injection hp2 with h1 h2
        exact h1.symm
      rw [hf, ← hk]
      unfold entryKey takeField
      rw [hkeys]
      simp

/-- Witness for C10 at a concrete retry guest (caller passes keys false)
and a concrete retry iterator consuming one entry. -/
theorem retry_forces_keys_and_bookmarks_witness :
    (mkIterator retryGuest { keys := false, values := true } none).2.1.options.keys = true ∧
    (drainIter.next).1.bookmark = some [1] ∧
    (some [1] : Option Bytes) = ([[1], [2]] : List Bytes).head? := by
  have h2 := retry_forces_keys_and_bookmarks.2 drainIter (drainIter.next).1
    ((drainIter.next).2.1) 0 (some [1]) (some [2]) (by decide) (by decide)
  exact ⟨retry_forces_keys_and_bookmarks.1 retryGuest { keys := false, values := true }
           none (by decide),
         h2.1,
         h2.2 (by decide) { id := 4, seq := 0, data := [[1], [2]], error := none } []
           (by decide)⟩

/-- A next() call on an errored iterator returns end immediately. -/
theorem next_errored (st : GuestIterator) (h : st.errored = true) :
    st.next = (st, [], NextOut.endOfData) := by
  unfold GuestIterator.next
  rw [if_pos (by simp [h])]

/-- A seek() on an errored iterator is a no-op. -/
theorem doSeek_errored (st : GuestIterator) (target : Bytes) (h : st.errored = true) :
    st.doSeek target = (st, []) := by
  unfold GuestIterator.doSeek
  rw [if_pos h]

/-- The consuming branch of next() does not change the iterator seq. -/
theorem consume_seq (st : GuestIterator) (f : Frame) (rest : List Frame) :
    (st.consume f rest).1.seq = st.seq := rfl

/-- Frames left pending by the consuming branch are the tail of the old
queue, or the partially drained head followed by the tail. -/
theorem consume_pending_subset (st : GuestIterator) (f : Frame) (rest : List Frame)
    (g : Frame) (hg : g ∈ (st.consume f rest).1.pending) :
    g = { f with data := entryRest st.options f.data } ∨ g ∈ rest := by
  unfold GuestIterator.consume at hg
  dsimp only at hg
  split at hg
  · exact Or.inr hg
  · rcases List.mem_cons.mp hg with h1 | h2
    · exact Or.inl h1
    · exact Or.inr h2

/-- No step of the iterator state machine ever decreases the seq. -/
theorem iterStep_seq_mono (st : GuestIterator) (ev : IterEv) :
    st.seq ≤ (iterStep st ev).1.seq := by
  cases ev with
  | frame f =>
    show st.seq ≤ (st.onData f).1.seq
    unfold GuestIterator.onData
    split
    · exact Nat.le_refl _
    · exact Nat.le_refl _
  | endFrame s =>
    show st.seq ≤ (st.onEnd s).1.seq
    unfold GuestIterator.onEnd
    split
    · exact Nat.le_refl _
    · exact Nat.le_refl _
  | seekCall t =>
    show st.seq ≤ (st.doSeek t).1.seq
    unfold GuestIterator.doSeek
    split
    · exact Nat.le_refl _
    · exact Nat.le_succ _
  | nextCall =>
    show st.seq ≤ (st.next).1.seq
    unfold GuestIterator.next
    split
    · exact Nat.le_refl _
    · split
      · exact Nat.le_refl _
      · split
        · exact Nat.le_refl _
        · split
          · exact Nat.le_refl _
          · rename_i x1 f rest hp x2 he
            rw [consume_seq]

/-- Every step of the iterator state machine preserves the pending-queue
seq invariant: only matching-seq frames are ever queued, seek clears the
queue while bumping the seq, and consumption only removes or trims
queued frames. -/
theorem iterStep_pendingInv (st : GuestIterator) (ev : IterEv) (h : pendingInv st) :
    pendingInv (iterStep st ev).1 := by
  cases ev with
  | frame f =>
    show pendingInv (st.onData f).1
    unfold GuestIterator.onData
    split
    · exact h
    · rename_i hseq
      intro g hg
      rcases List.mem_append.mp hg with h1 | h2
      · exact h g h1
      · have hgf : g = f := by simpa using h2
        rw [hgf]
        exact (not_ne_iff.mp hseq).symm
  | endFrame s =>
    show pendingInv (st.onEnd s).1
    unfold GuestIterator.onEnd
    split
    · exact h
    · intro g hg
      exact h g hg
  | seekCall t =>
    show pendingInv (st.doSeek t).1
    unfold GuestIterator.doSeek
    split
    · exact h
    · intro g hg
      simp at hg
  | nextCall =>
    show pendingInv (st.next).1
    unfold GuestIterator.next
    split
    · exact h
    · split
      · exact h
      · split
        · intro g hg
          exact h g hg
        · split
          · intro g hg
            simp at hg
          · rename_i x1 f rest hp x2 he
            intro g hg
            rw [consume_seq]
            have hfseq : f.seq = st.seq := h f (by rw [hp]; exact List.mem_cons_self f rest)
            rcases consume_pending_subset st f rest g hg with h1 | h2
            · rw [h1]
              exact hfseq
            · exact h g (by rw [hp]; exact List.mem_cons_of_mem f h2)

/-- Under the pending-queue invariant, an entry returned by next()
originates from a frame carrying the current seq. -/
theorem next_entry_srcSeq (st st2 : GuestIterator) (effs : List Effect) (s : Nat)
    (k v : Option Bytes) (h : st.next = (st2, effs, NextOut.entry s k v))
    (hinv : pendingInv st) : s = st.seq := by
  obtain ⟨f, rest, hp, he, hc⟩ := next_entry_cases st st2 effs s k v h
  unfold GuestIterator.consume at hc
  simp only [Prod.mk.injEq] at hc
  obtain ⟨hst2, heffs, hout⟩ := hc
  simp only [NextOut.entry.injEq] at hout
  rw [← hout.1]
  exact hinv f (by rw [hp]; exact List.mem_cons_self f rest)

/-- Once errored, an iterator stays errored and every next() outcome is
end. -/
theorem iterStep_errored (st : GuestIterator) (ev : IterEv) (h : st.errored = true) :
    (iterStep st ev).1.errored = true ∧
    (∀ o, (iterStep st ev).2 = some o → o = NextOut.endOfData) := by
  cases ev with
  | frame f =>
    refine ⟨?_, by intro o ho; simp [iterStep] at ho⟩
    show (st.onData f).1.errored = true
    unfold GuestIterator.onData
    split <;> exact h
  | endFrame s =>
    refine ⟨?_, by intro o ho; simp [iterStep] at ho⟩
    show (st.onEnd s).1.errored = true
    unfold GuestIterator.onEnd
    split <;> exact h
  | seekCall t =>
    refine ⟨?_, by intro o ho; simp [iterStep] at ho⟩
    show (st.doSeek t).1.errored = true
    rw [doSeek_errored st t h]
    exact h
  | nextCall =>
    constructor
    · show (st.next).1.errored = true
      rw [next_errored st h]
      exact h
    · intro o ho
      have hh : (iterStep st IterEv.nextCall).2 = some (st.next).2.2 := rfl
      rw [hh, next_errored st h] at ho
      injection ho with ho2
      exact ho2.symm

/-- Entries output by a run of the iterator state machine from a state
satisfying the pending-queue invariant originate from frames whose seq
is at least the starting seq. -/
theorem runIter_entry_seq (evs : List IterEv) :
    ∀ (st : GuestIterator), pendingInv st →
      ∀ o ∈ (runIter st evs).2, ∀ s k v, o = NextOut.entry s k v → st.seq ≤ s := by
  induction evs with
  | nil =>
    intro st hinv o ho
    simp [runIter] at ho
  | cons ev evs ih =>
    intro st hinv o ho s k v hoe
    have hrun : (runIter st (ev :: evs)).2 =
        (iterStep st ev).2.toList ++ (runIter (iterStep st ev).1 evs).2 := rfl
    rw [hrun] at ho
    rcases List.mem_append.mp ho with h1 | h2
    · cases ev with
      | frame f => simp [iterStep] at h1
      | endFrame s2 => simp [iterStep] at h1
      | seekCall t => simp [iterStep] at h1
      | nextCall =>
        have h1b : o = (st.next).2.2 := by simpa [iterStep] using h1
        have h3 : (st.next).2.2 = NextOut.entry s k v := by
          rw [← h1b, hoe]
        have hnext : st.next = ((st.next).1, (st.next).2.1, NextOut.entry s k v) := by
          rw [← h3]
        have hseq := next_entry_srcSeq st (st.next).1 ((st.next).2.1) s k v hnext hinv
        rw [hseq]
    · have hinv2 : pendingInv (iterStep st ev).1 := iterStep_pendingInv st ev hinv
      exact Nat.le_trans (iterStep_seq_mono st ev)
        (ih (iterStep st ev).1 hinv2 o h2 s k v hoe)

/-- A run of the iterator state machine from an errored state never
outputs an entry. -/
theorem runIter_errored_no_entry (evs : List IterEv) :
    ∀ (st : GuestIterator), st.errored = true →
      ∀ o ∈ (runIter st evs).2, ∀ s k v, o = NextOut.entry s k v → False := by
  induction evs with
  | nil =>
    intro st h o ho
    simp [runIter] at ho
  | cons ev evs ih =>
    intro st h o ho s k v hoe
    have hrun : (runIter st (ev :: evs)).2 =
        (iterStep st ev).2.toList ++ (runIter (iterStep st ev).1 evs).2 := rfl
    rw [hrun] at ho
    rcases List.mem_append.mp ho with h1 | h2
    · cases ev with
      | frame f => simp [iterStep] at h1
      | endFrame s2 => simp [iterStep] at h1
      | seekCall t => simp [iterStep] at h1
      | nextCall =>
        have h1b : o = (st.next).2.2 := by simpa [iterStep] using h1
        rw [next_errored st h] at h1b
        rw [hoe] at h1b
        simp at h1b
    · exact ih (iterStep st ev).1 (iterStep_errored st ev h).1 o h2 s k v hoe

/-- C1: an inbound iteratorData or iteratorEnd frame whose seq differs
from the addressed iterator's current seq is discarded with no guest
state change and no effect; and every entry returned by next() after a
seek() originates from a frame whose seq is strictly greater than the
pre-seek seq, so no entry produced before the seek is ever returned. -/
theorem stale_frames_discarded_and_seek_isolation :
    (∀ (g : Guest) (res : Frame) (it : GuestIterator),
        g.iterators.get res.id = some it → it.seq ≠ res.seq →
        oniteratordata g res = (g, []) ∧ oniteratorend g res.id res.seq = (g, [])) ∧
    (∀ (st : GuestIterator) (target : Bytes) (evs : List IterEv) (o : NextOut)
        (s : Nat) (k v : Option Bytes),
        o ∈ (runIter (st.doSeek target).1 evs).2 → o = NextOut.entry s k v →
        st.errored = false ∧ st.seq < s) := by
  constructor
  · intro g res it hget hne
    constructor
    · simp only [oniteratordata, hget]
      rw [if_pos hne]
    · simp only [oniteratorend, hget]
      rw [if_pos hne]
  · intro st target evs o s k v ho hoe
    cases herr : st.errored with
    | true =>
      exfalso
      have hds : (st.doSeek target).1 = st := by rw [doSeek_errored st target herr]
      rw [hds] at ho
      exact runIter_errored_no_entry evs st herr o ho s k v hoe
    | false =>
      refine ⟨rfl, ?_⟩
      have hds : (st.doSeek target).1 =
          { st with pending := [], ended := false, seq := st.seq + 1, reqSeq := st.seq + 1,
                    seek := some target, bookmark := none } := by
        unfold GuestIterator.doSeek
        rw [if_neg (by simp [herr])]
      have hinv : pendingInv (st.doSeek target).1 := by
        rw [hds]
        intro f hf
        simp at hf
      have hle := runIter_entry_seq evs (st.doSeek target).1 hinv o ho s k v hoe
      have hseq : (st.doSeek target).1.seq = st.seq + 1 := by rw [hds]
      rw [hseq] at hle
      exact Nat.lt_of_succ_le hle

/-- Witness for C1: a stale frame (seq 1 against current seq 2) on a
concrete guest is discarded, and a concrete post-seek run returning an
entry does so from a frame with seq 3, strictly above the pre-seek
seq 2. -/
theorem stale_frames_discarded_and_seek_isolation_witness :
    oniteratordata lostGuest { id := 4, seq := 1, data := [], error := none } = (lostGuest, []) ∧
    oniteratorend lostGuest 4 1 = (lostGuest, []) ∧
    (waitIter.errored = false ∧ waitIter.seq < 3) := by
  have h1 := stale_frames_discarded_and_seek_isolation.1 lostGuest
    { id := 4, seq := 1, data := [], error := none } waitIter (by decide) (by decide)
  have h2 := stale_frames_discarded_and_seek_isolation.2 waitIter [9]
    [IterEv.frame { id := 4, seq := 3, data := [[5]], error := none }, IterEv.nextCall]
    (NextOut.entry 3 (some [5]) none) 3 (some [5]) none (by decide) rfl
  exact ⟨h1.1, h1.2, h2⟩

/-- C4 (amended): processing one inbound reply frame emits the flush
event exactly once whenever both maps are empty afterwards and never
otherwise; hence flush fires at least once whenever a frame empties the
maps, but it also fires again on every further frame processed while the
maps stay empty, without them becoming non-empty in between. -/
theorem flush_emission_characterization (g : Guest) (m : OutMsg) :
    (ondata g m).2.count Effect.emitFlush =
      (if (ondata g m).1.isFlushed then 1 else 0) := by
  have h := emitFlush_not_mem_dispatch g m
  simp only [ondata, List.count_append]
  rw [List.count_eq_zero.mpr h]
  simp only [kFlushed, Nat.zero_add]
  split <;> simp

end ManyLevel
